import Mathlib

/-!
Verification of the ALFWorld API session/worker coordination layer
(`alfworld/api/session_manager.py`, `alfworld/api/routes.py`,
`alfworld/api/models.py`) against its specification.

The Python code is shallowly embedded: byte buffers are lists of naturals,
the Docker multiplexed-stream decoder is a recursive function on the byte
list, and the stateful `SessionManager` is modelled as a pure state-passing
machine whose external effects (container start, attach, worker responses,
uuid generation, random choice, clock) are supplied by an explicit
environment record.  The UTF-8-with-replacement byte decoder used by
`bytes.decode("utf-8", errors="replace")` is kept abstract as a function
parameter `utf8 : List Nat -> String`, since the decoder logic under
verification is the framing, not the character decoding.
-/

namespace Alfworld

/-! ## Framed stream codec (`SessionManager._decode_docker_stream`) -/

/-- Big-endian interpretation of a byte list, as Python's
`int.from_bytes(bs, "big")`. -/
def int_from_bytes_be (bs : List Nat) : Nat :=
  bs.foldl (fun acc b => acc * 256 + b) 0

/-- The loop of `SessionManager._decode_docker_stream`, returning the list of
text pieces that the Python code appends to `result`.  `raw` is the remaining
buffer (the Python code tracks the same thing with the index `pos`). -/
def decodeLoop (utf8 : List Nat → String) (raw : List Nat) : List String :=
  match raw with
  | [] => []
  | b :: tl =>
    if 8 ≤ (b :: tl).length then
      if b = 0 ∨ b = 1 ∨ b = 2 then
        let size := int_from_bytes_be (((b :: tl).drop 4).take 4)
        if h : 8 + size ≤ (b :: tl).length ∧ 0 < size then
          let payload := ((b :: tl).drop 8).take size
          let restPieces := decodeLoop utf8 ((b :: tl).drop (8 + size))
          if b = 0 ∨ b = 1 then utf8 payload :: restPieces else restPieces
        else [utf8 (b :: tl)]
      else [utf8 (b :: tl)]
    else [utf8 (b :: tl)]
termination_by raw.length
decreasing_by
  simp only [List.length_drop, List.length_cons]
  omega

/-- Model of `SessionManager._decode_docker_stream`: decode Docker multiplexed stream
data, joining the collected pieces as `"".join(result)` does. -/
def decode_docker_stream (utf8 : List Nat → String) (data : List Nat) : String :=
  String.join (decodeLoop utf8 data)

/-- One Docker attach-stream frame: a stream kind byte and a payload. -/
structure DockerFrame where
  streamType : Nat
  payload : List Nat
deriving DecidableEq

/-- Big-endian 4-byte encoding of a 32-bit length. -/
def be32 (n : Nat) : List Nat :=
  [n / 16777216 % 256, n / 65536 % 256, n / 256 % 256, n % 256]

/-- The wire bytes of a frame: the 8-byte header
`[stream_type, 0, 0, 0, size(4, big-endian)]` followed by the payload. -/
def frameBytes (f : DockerFrame) : List Nat :=
  f.streamType :: 0 :: 0 :: 0 :: (be32 f.payload.length ++ f.payload)

/-- A frame the decoder's frame branch accepts: stream kind in {0,1,2},
payload length representable in 32 bits, and a non-empty payload (the code
requires `size > 0`; a zero-size header is handled by the raw fallback). -/
def WellFormedFrame (f : DockerFrame) : Prop :=
  (f.streamType = 0 ∨ f.streamType = 1 ∨ f.streamType = 2) ∧
    f.payload.length < 4294967296 ∧ f.payload ≠ []

instance : DecidablePred WellFormedFrame := fun f => by
  unfold WellFormedFrame; infer_instance

/-- A concrete byte decoder used to instantiate the abstract `utf8`
parameter on concrete inputs; it agrees with UTF-8-with-replacement on
ASCII bytes. -/
def asciiDecode (bs : List Nat) : String :=
  String.mk (bs.map Char.ofNat)

theorem int_from_bytes_be_be32 (n : Nat) (h : n < 4294967296) :
    int_from_bytes_be (be32 n) = n := by
  simp only [be32, int_from_bytes_be, List.foldl]
  omega

/-- Decoding a buffer that starts with a well-formed frame consumes that
frame: its payload is emitted when the stream kind is 0 or 1 (stdin or
stdout in the code's comment), dropped when it is 2, and decoding continues
on the remaining bytes. -/
theorem decodeLoop_frame (utf8 : List Nat → String) (t : Nat) (payload rest : List Nat)
    (ht : t = 0 ∨ t = 1 ∨ t = 2) (hlen : payload.length < 4294967296)
    (hne : payload ≠ []) :
    decodeLoop utf8 (frameBytes ⟨t, payload⟩ ++ rest) =
      (if t = 0 ∨ t = 1 then [utf8 payload] else []) ++ decodeLoop utf8 rest := by
  have hp : 0 < payload.length := List.length_pos.mpr hne
  have hsz : int_from_bytes_be (be32 payload.length) = payload.length :=
    int_from_bytes_be_be32 _ hlen
  have hshape : frameBytes ⟨t, payload⟩ ++ rest =
      t :: 0 :: 0 :: 0 :: (payload.length / 16777216 % 256) ::
        (payload.length / 65536 % 256) :: (payload.length / 256 % 256) ::
        (payload.length % 256) :: (payload ++ rest) := by
    simp [frameBytes, be32]
  rw [hshape, decodeLoop]
  have h8 : 8 ≤ (t :: 0 :: 0 :: 0 :: (payload.length / 16777216 % 256) ::
      (payload.length / 65536 % 256) :: (payload.length / 256 % 256) ::
      (payload.length % 256) :: (payload ++ rest)).length := by
    simp
  rw [if_pos h8, if_pos ht]
  have hdt : (((t :: 0 :: 0 :: 0 :: (payload.length / 16777216 % 256) ::
      (payload.length / 65536 % 256) :: (payload.length / 256 % 256) ::
      (payload.length % 256) :: (payload ++ rest)).drop 4).take 4) = be32 payload.length := by
    simp [be32, List.drop, List.take]
  simp only [hdt, hsz]
  have hcond : 8 + payload.length ≤ (t :: 0 :: 0 :: 0 :: (payload.length / 16777216 % 256) ::
      (payload.length / 65536 % 256) :: (payload.length / 256 % 256) ::
      (payload.length % 256) :: (payload ++ rest)).length ∧ 0 < payload.length := by
    constructor
    · simp; omega
    · exact hp
  rw [dif_pos hcond]
  have hd8 : ((t :: 0 :: 0 :: 0 :: (payload.length / 16777216 % 256) ::
      (payload.length / 65536 % 256) :: (payload.length / 256 % 256) ::
      (payload.length % 256) :: (payload ++ rest)).drop 8) = payload ++ rest := by
    simp [List.drop]
  have htake : (payload ++ rest).take payload.length = payload := List.take_left _ _
  have hdall : ((t :: 0 :: 0 :: 0 :: (payload.length / 16777216 % 256) ::
      (payload.length / 65536 % 256) :: (payload.length / 256 % 256) ::
      (payload.length % 256) :: (payload ++ rest)).drop (8 + payload.length)) = rest := by
    rw [← List.drop_drop, hd8, List.drop_left]
  simp only [hd8, htake, hdall]
  by_cases hst : t = 0 ∨ t = 1
  · simp [hst]
  · simp [hst]

theorem string_join_append (l1 l2 : List String) :
    String.join (l1 ++ l2) = String.join l1 ++ String.join l2 := by
  simp only [String.join_eq, List.map_append, List.flatten_append]
  rfl

theorem string_join_singleton (s : String) : String.join [s] = s := by
  simp [String.join_eq]

/-- The payloads kept by the decoder from a frame list: those of frames with
stream kind 0 or 1, in order, each decoded on its own. -/
def keptPayloads (utf8 : List Nat → String) (fs : List DockerFrame) : List String :=
  (fs.filter (fun f => f.streamType = 0 ∨ f.streamType = 1)).map (fun f => utf8 f.payload)

theorem decodeLoop_frames (utf8 : List Nat → String) (fs : List DockerFrame)
    (rest : List Nat) (h : ∀ f ∈ fs, WellFormedFrame f) :
    decodeLoop utf8 ((fs.map frameBytes).flatten ++ rest) =
      keptPayloads utf8 fs ++ decodeLoop utf8 rest := by
  induction fs with
  | nil => simp [keptPayloads]
  | cons f fs ih =>
    obtain ⟨ht, hlen, hne⟩ := h f (List.mem_cons_self f fs)
    have hrec : ∀ g ∈ fs, WellFormedFrame g := fun g hg => h g (List.mem_cons_of_mem f hg)
    obtain ⟨t, p⟩ := f
    simp only [List.map_cons, List.flatten_cons, List.append_assoc]
    rw [decodeLoop_frame utf8 t p ((fs.map frameBytes).flatten ++ rest) ht hlen hne]
    rw [ih hrec]
    by_cases hst : t = 0 ∨ t = 1
    · simp [keptPayloads, hst, List.filter_cons]
    · simp [keptPayloads, hst, List.filter_cons]

/-- Whenever the frame-size guard fails at the head of the buffer, the
decoder takes the raw-text fallback: it returns the whole remaining buffer
decoded as one piece of text. -/
theorem decodeLoop_one_fallback (utf8 : List Nat → String) (b : Nat) (tl : List Nat)
    (h : ¬(8 + int_from_bytes_be (((b :: tl).drop 4).take 4) ≤ (b :: tl).length ∧
          0 < int_from_bytes_be (((b :: tl).drop 4).take 4))) :
    decodeLoop utf8 (b :: tl) = [utf8 (b :: tl)] := by
  rw [decodeLoop]
  by_cases h8 : 8 ≤ (b :: tl).length
  · rw [if_pos h8]
    by_cases hb : b = 0 ∨ b = 1 ∨ b = 2
    · rw [if_pos hb, dif_neg h]
    · rw [if_neg hb]
  · rw [if_neg h8]

/-- A non-empty strict prefix of a well-formed frame's wire bytes (a
truncated trailing frame) always takes the raw-text fallback: the decoder
emits the truncated bytes as one raw piece of text. -/
theorem decodeLoop_truncated (utf8 : List Nat → String) (t : Nat) (p : List Nat) (k : Nat)
    (hplen : p.length < 4294967296) (hk0 : 0 < k)
    (hk : k < (frameBytes ⟨t, p⟩).length) :
    decodeLoop utf8 ((frameBytes ⟨t, p⟩).take k) =
      [utf8 ((frameBytes ⟨t, p⟩).take k)] := by
  obtain ⟨k1, rfl⟩ : ∃ k1, k = k1 + 1 := ⟨k - 1, by omega⟩
  have hfb : frameBytes ⟨t, p⟩ = t :: (0 :: 0 :: 0 :: (be32 p.length ++ p)) := by
    simp [frameBytes]
  have hflen : (frameBytes ⟨t, p⟩).length = 8 + p.length := by
    simp [frameBytes, be32]
    omega
  rw [hflen] at hk
  rw [hfb, List.take_succ_cons]
  apply decodeLoop_one_fallback
  have hlength : (t :: (0 :: 0 :: 0 :: (be32 p.length ++ p)).take k1).length = k1 + 1 := by
    simp [List.length_take, be32]
    omega
  intro hcontra
  obtain ⟨habs, hpos⟩ := hcontra
  rw [hlength] at habs
  by_cases hk7 : k1 < 7
  · omega
  · have hsize : int_from_bytes_be
        (((t :: (0 :: 0 :: 0 :: (be32 p.length ++ p)).take k1).drop 4).take 4) = p.length := by
      have h1 : (t :: (0 :: 0 :: 0 :: (be32 p.length ++ p)).take k1).drop 4 =
          ((0 :: 0 :: 0 :: (be32 p.length ++ p)).take k1).drop 3 := by
        simp [List.drop]
      have h2 : ((0 :: 0 :: 0 :: (be32 p.length ++ p)).take k1).drop 3 =
          ((0 :: 0 :: 0 :: (be32 p.length ++ p)).drop 3).take (k1 - 3) :=
        List.drop_take k1 3 _
      have h3 : (0 :: 0 :: 0 :: (be32 p.length ++ p)).drop 3 = be32 p.length ++ p := by
        simp [List.drop]
      have h4 : ((be32 p.length ++ p).take (k1 - 3)).take 4 =
          (be32 p.length ++ p).take 4 := by
        rw [List.take_take]
        have : min 4 (k1 - 3) = 4 := by omega
        rw [this]
      have h5 : (be32 p.length ++ p).take 4 = be32 p.length := by
        have hb4 : (be32 p.length).length = 4 := by simp [be32]
        rw [← hb4, List.take_left]
      rw [h1, h2, h3, h4, h5, int_from_bytes_be_be32 _ hplen]
    rw [hsize] at habs
    omega

theorem decodeLoop_nil (utf8 : List Nat → String) : decodeLoop utf8 [] = [] := by
  rw [decodeLoop]

/-- Claim C3 (amended): for every input consisting entirely of well-formed
frames with positive payload length, the stream decoder returns the
concatenation, in order, of the payloads of the frames whose stream kind is
0 or 1, each decoded by the byte-to-text decoder; stderr (kind 2) frames
are consumed but their payloads are discarded. -/
theorem c3_decode_wellformed_frames (utf8 : List Nat → String)
    (fs : List DockerFrame) (h : ∀ f ∈ fs, WellFormedFrame f) :
    decode_docker_stream utf8 (fs.map frameBytes).flatten =
      String.join (keptPayloads utf8 fs) := by
  unfold decode_docker_stream
  have h0 := decodeLoop_frames utf8 fs [] h
  rw [List.append_nil, decodeLoop_nil, List.append_nil] at h0
  rw [h0]

/-- Claim C3 counterexample: a single well-formed stderr frame (stream kind
2) with payload byte 97 decodes to the empty string, not to the decoded
payload, so stderr payloads are not part of the decoder's output as the
claim states. -/
theorem c3_stderr_payload_dropped :
    decode_docker_stream asciiDecode (frameBytes ⟨2, [97]⟩) ≠ asciiDecode [97] := by
  have h := decodeLoop_frame asciiDecode 2 [97] [] (by omega) (by simp) (by simp)
  rw [List.append_nil, decodeLoop_nil] at h
  unfold decode_docker_stream
  rw [h]
  decide

theorem c3_decode_wellformed_frames_witness :
    (∀ f ∈ ([⟨1, [104]⟩, ⟨2, [120]⟩, ⟨0, [105]⟩] : List DockerFrame), WellFormedFrame f) ∧
    decode_docker_stream asciiDecode
        ((([⟨1, [104]⟩, ⟨2, [120]⟩, ⟨0, [105]⟩] : List DockerFrame).map frameBytes).flatten) =
      String.join (keptPayloads asciiDecode [⟨1, [104]⟩, ⟨2, [120]⟩, ⟨0, [105]⟩]) :=
  ⟨by decide, c3_decode_wellformed_frames asciiDecode _ (by decide)⟩

/-- Claim C4 (amended): for a buffer that is a sequence of well-formed
frames followed by a non-empty truncated trailing frame, the decoder
returns the decoded text of the well-formed prefix followed by the
truncated suffix bytes decoded as raw text; no byte carry is returned (the
decoder's result is a single string, and only `_read_from_stdout` keeps a
text-level carry across newline splits). -/
theorem c4_truncated_tail_decoded_as_raw_text (utf8 : List Nat → String)
    (fs : List DockerFrame) (t : Nat) (p : List Nat) (k : Nat)
    (hfs : ∀ f ∈ fs, WellFormedFrame f) (hplen : p.length < 4294967296)
    (hk0 : 0 < k) (hk : k < (frameBytes ⟨t, p⟩).length) :
    decode_docker_stream utf8
        ((fs.map frameBytes).flatten ++ (frameBytes ⟨t, p⟩).take k) =
      decode_docker_stream utf8 (fs.map frameBytes).flatten ++
        utf8 ((frameBytes ⟨t, p⟩).take k) := by
  unfold decode_docker_stream
  rw [decodeLoop_frames utf8 fs _ hfs, decodeLoop_truncated utf8 t p k hplen hk0 hk]
  have h0 := decodeLoop_frames utf8 fs [] hfs
  rw [List.append_nil, decodeLoop_nil, List.append_nil] at h0
  rw [h0, string_join_append, string_join_singleton]

/-- Claim C4 counterexample: appending the single truncated byte 1 after a
complete stdout frame changes the decoded text (the truncated byte is
decoded inline as raw text), instead of leaving it equal to the decoding of
the well-formed prefix alone as the claim states. -/
theorem c4_truncation_changes_decoded_text :
    decode_docker_stream asciiDecode (frameBytes ⟨1, [97]⟩ ++ [1]) ≠
      decode_docker_stream asciiDecode (frameBytes ⟨1, [97]⟩) := by
  have h1 := decodeLoop_frame asciiDecode 1 [97] [1] (by omega) (by simp) (by simp)
  have h2 := decodeLoop_frame asciiDecode 1 [97] [] (by omega) (by simp) (by simp)
  rw [List.append_nil, decodeLoop_nil] at h2
  have h3 : decodeLoop asciiDecode [1] = [asciiDecode [1]] := by
    apply decodeLoop_one_fallback
    rintro ⟨hle, -⟩
    simp only [List.length_cons, List.length_nil] at hle
    omega
  rw [h3] at h1
  unfold decode_docker_stream
  rw [h1, h2]
  decide

theorem c4_truncated_tail_decoded_as_raw_text_witness :
    (∀ f ∈ ([⟨1, [104, 105]⟩] : List DockerFrame), WellFormedFrame f) ∧
    ([97, 98, 99] : List Nat).length < 4294967296 ∧ 0 < 9 ∧
    9 < (frameBytes ⟨1, [97, 98, 99]⟩).length ∧
    decode_docker_stream asciiDecode
        ((([⟨1, [104, 105]⟩] : List DockerFrame).map frameBytes).flatten ++
          (frameBytes ⟨1, [97, 98, 99]⟩).take 9) =
      decode_docker_stream asciiDecode
          (([⟨1, [104, 105]⟩] : List DockerFrame).map frameBytes).flatten ++
        asciiDecode ((frameBytes ⟨1, [97, 98, 99]⟩).take 9) :=
  ⟨by decide, by decide, by decide, by decide,
    c4_truncated_tail_decoded_as_raw_text asciiDecode _ 1 [97, 98, 99] 9
      (by decide) (by decide) (by decide) (by decide)⟩

/-- Claim C9: a buffer beginning with a well-formed frame header that
declares payload length 0 is not skipped as an empty frame; the decoder
takes the raw-text fallback and returns all remaining bytes of the buffer,
the 8 header bytes included, decoded as text. -/
theorem c9_zero_length_header_takes_raw_fallback (utf8 : List Nat → String)
    (t : Nat) (rest : List Nat) (_ht : t = 0 ∨ t = 1 ∨ t = 2) :
    decode_docker_stream utf8 (t :: 0 :: 0 :: 0 :: 0 :: 0 :: 0 :: 0 :: rest) =
      utf8 (t :: 0 :: 0 :: 0 :: 0 :: 0 :: 0 :: 0 :: rest) := by
  unfold decode_docker_stream
  rw [decodeLoop_one_fallback, string_join_singleton]
  have hz : (((t :: 0 :: 0 :: 0 :: 0 :: 0 :: 0 :: 0 :: rest).drop 4).take 4) =
      [0, 0, 0, 0] := by
    simp [List.drop, List.take]
  rw [hz]
  rintro ⟨-, hpos⟩
  simp [int_from_bytes_be] at hpos

theorem c9_zero_length_header_takes_raw_fallback_witness :
    ((1 : Nat) = 0 ∨ (1 : Nat) = 1 ∨ (1 : Nat) = 2) ∧
    decode_docker_stream asciiDecode [1, 0, 0, 0, 0, 0, 0, 0, 104, 105] =
      asciiDecode [1, 0, 0, 0, 0, 0, 0, 0, 104, 105] :=
  ⟨by decide, c9_zero_length_header_takes_raw_fallback asciiDecode 1 [104, 105] (by decide)⟩

/-! ## Data model (`session_manager.py`, `models.py`) -/

/-- The `TASK_TYPES` map from `alfworld/api/models.py`, as an association
list keyed by the task-type integer. -/
def TASK_TYPES : List (Int × String) :=
  [(1, "pick_and_place_simple"),
   (2, "look_at_obj_in_light"),
   (3, "pick_clean_then_place_in_recep"),
   (4, "pick_heat_then_place_in_recep"),
   (5, "pick_cool_then_place_in_recep"),
   (6, "pick_two_obj_and_place")]

/-- Contiguous-sublist test on character lists. -/
def listSubstr (needle : List Char) : List Char → Bool
  | [] => needle.isEmpty
  | c :: tl => needle.isPrefixOf (c :: tl) || listSubstr needle tl

/-- Python's `needle in hay` substring test on strings. -/
def substrIn (needle hay : String) : Bool :=
  listSubstr needle.data hay.data

/-- The `Session` dataclass.  The attached socket and the container handle
are opaque identifiers; the asyncio lock is not represented (the model is
sequential). -/
structure Session where
  session_id : String
  container : Nat
  socket : Nat
  game_file : String
  observation : String
  admissible_commands : List String
  status : String
  created_at : Nat
  last_active_at : Nat
  read_buffer : String
deriving DecidableEq

/-- Modelled from the spec: `alfworld/api/errors.py` is not under `src/`
(only its importers are).  Section 7 of the spec fixes the error kinds
surfaced by the coordination layer: `no-slots`, `session-not-found`,
`session-already-done`, and `container-error` with a diagnostic string. -/
inductive ApiError where
  | noSlotsAvailable (maxSessions : Nat)
  | sessionNotFound (session_id : String)
  | sessionAlreadyDone (session_id : String)
  | containerError (message : String)
deriving DecidableEq

/-- The mutable state of a `SessionManager` together with the parts of the
server configuration it reads and ghost observations of the Docker side
effects it has issued (containers started, kill calls issued). -/
structure ManagerState where
  sessions : List (String × Session)
  semValue : Nat
  maxSessions : Nat
  game_files : List String
  idleTimeout : Nat
  startedContainers : List Nat
  killedContainers : List Nat
deriving DecidableEq

/-- Python dict assignment `m[k] = v` on the sessions map. -/
def mapSet (m : List (String × Session)) (k : String) (v : Session) :
    List (String × Session) :=
  if m.any (fun q => q.1 == k) then
    m.map (fun q => if q.1 == k then (k, v) else q)
  else
    m ++ [(k, v)]

/-- Python `m.pop(k, None)` on the sessions map: the removed value, if any,
and the remaining map. -/
def mapPop (m : List (String × Session)) (k : String) :
    Option Session × List (String × Session) :=
  match m.find? (fun q => q.1 == k) with
  | none => (none, m)
  | some q => (some q.2, m.eraseP (fun r => r.1 == k))

/-- Everything outside the manager that one `create_session` call consumes:
the fresh uuid, the container handle and socket Docker would return,
whether the container start and the attach raise, the worker's init
response (I/O failures during the init exchange are already folded into a
synthetic error response by `_send_command_sync`), the random index, and
the clock. -/
structure CreateEnv where
  sessionId : String
  newContainer : Nat
  socketId : Nat
  startOk : Bool
  attachOk : Bool
  initStatus : String
  initMessage : String
  initObservation : String
  initAdmissible : List String
  randIndex : Nat
  now : Nat
deriving DecidableEq

/-- The game-file candidate pool computed by `create_session` when the
caller did not supply a game file (lines 79-88 of `session_manager.py`). -/
def pick_candidates (game_files : List String) (task_type : Option Int) :
    List String :=
  match task_type with
  | none => game_files
  | some tt =>
    if h : (TASK_TYPES.find? (fun q => q.1 == tt)).isSome then
      let task_name := ((TASK_TYPES.find? (fun q => q.1 == tt)).get h).2
      let filtered := game_files.filter (fun g => substrIn task_name g)
      if filtered.isEmpty then game_files else filtered
    else game_files

/-- Model of `random.choice(candidates)`: `none` models the `IndexError` raised on
an empty sequence. -/
def random_choice (randIndex : Nat) (candidates : List String) : Option String :=
  candidates.get? (randIndex % candidates.length)

/-- Model of `SessionManager.create_session`.  Returns the created session or the
raised error, together with the manager state after the call. -/
def create_session (st : ManagerState) (env : CreateEnv)
    (game_file : Option String) (task_type : Option Int) :
    Except ApiError Session × ManagerState :=
  if st.semValue = 0 then
    (Except.error (ApiError.noSlotsAvailable st.maxSessions), st)
  else
    let st1 : ManagerState := { st with semValue := st.semValue - 1 }
    let picked : Option String :=
      match game_file with
      | some g => some g
      | none => random_choice env.randIndex (pick_candidates st.game_files task_type)
    match picked with
    | none =>
      (Except.error (ApiError.containerError ("Failed to create session: IndexError")),
        { st1 with semValue := st1.semValue + 1 })
    | some gf =>
      if !env.startOk then
        (Except.error (ApiError.containerError ("Failed to create session: start")),
          { st1 with semValue := st1.semValue + 1 })
      else
        let st2 : ManagerState :=
          { st1 with startedContainers := st1.startedContainers ++ [env.newContainer] }
        if !env.attachOk then
          (Except.error (ApiError.containerError ("Failed to create session: attach")),
            { st2 with semValue := st2.semValue + 1 })
        else
          let session : Session :=
            { session_id := env.sessionId
              container := env.newContainer
              socket := env.socketId
              game_file := gf
              observation := ""
              admissible_commands := []
              status := "active"
              created_at := env.now
              last_active_at := env.now
              read_buffer := "" }
          let st3 : ManagerState :=
            { st2 with sessions := mapSet st2.sessions env.sessionId session }
          if env.initStatus ≠ "ok" then
            (Except.error (ApiError.containerError ("Init failed: " ++ env.initMessage)),
              { st3 with
                  killedContainers := st3.killedContainers ++ [env.newContainer]
                  sessions := (mapPop st3.sessions env.sessionId).2
                  semValue := st3.semValue + 1 })
          else
            let session2 : Session :=
              { session with
                  observation := env.initObservation
                  admissible_commands := env.initAdmissible }
            (Except.ok session2,
              { st3 with sessions := mapSet st3.sessions env.sessionId session2 })

/-- Model of `SessionManager.get_session`. -/
def get_session (st : ManagerState) (session_id : String) : Except ApiError Session :=
  match st.sessions.find? (fun q => q.1 == session_id) with
  | none => Except.error (ApiError.sessionNotFound session_id)
  | some q => Except.ok q.2

/-- Model of `SessionManager.delete_session`. -/
def delete_session (st : ManagerState) (session_id : String) :
    Except ApiError Unit × ManagerState :=
  match mapPop st.sessions session_id with
  | (none, _) => (Except.error (ApiError.sessionNotFound session_id), st)
  | (some s, rest) =>
    (Except.ok (),
      { st with
          sessions := rest
          killedContainers := st.killedContainers ++ [s.container]
          semValue := st.semValue + 1 })

/-- Model of `SessionManager.delete_all_sessions`: deletes every current id,
swallowing per-session failures, and returns the ids actually deleted. -/
def delete_all_sessions (st : ManagerState) : List String × ManagerState :=
  (st.sessions.map Prod.fst).foldl
    (fun acc sid =>
      match delete_session acc.2 sid with
      | (Except.ok _, st2) => (acc.1 ++ [sid], st2)
      | (Except.error _, st2) => (acc.1, st2))
    ([], st)

/-- One pass of the body of `SessionManager._cleanup_loop`: delete the
sessions whose idle age exceeds the idle timeout, swallowing failures. -/
def cleanup_sweep (st : ManagerState) (now : Nat) : ManagerState :=
  let to_remove :=
    (st.sessions.filter (fun q => st.idleTimeout < now - q.2.last_active_at)).map Prod.fst
  to_remove.foldl (fun s sid => (delete_session s sid).2) st

/-- Model of `SessionManager.shutdown` (after cancelling the cleanup task): delete
every current session, swallowing failures. -/
def shutdown (st : ManagerState) : ManagerState :=
  (st.sessions.map Prod.fst).foldl (fun s sid => (delete_session s sid).2) st

/-! ## Routes and batch coordinator (`routes.py`; `batcher.py` modelled
from the spec) -/

/-- The worker's response to one step exchange, with the dictionary-access
defaults of `routes.py` already applied (`observation` defaults to `""`,
`score` to 0, `done` and `won` to `false`, `admissible_commands` to `[]`,
`message` to `"Step failed"`). -/
structure WorkerStepResponse where
  status : String
  message : String
  observation : String
  score : Int
  done : Bool
  won : Bool
  admissible_commands : List String
deriving DecidableEq

/-- The `StepResponse` schema from `models.py`. -/
structure StepResponse where
  session_id : String
  observation : String
  score : Int
  done : Bool
  won : Bool
  admissible_commands : List String
deriving DecidableEq

/-- The `SessionResponse` schema from `models.py`. -/
structure SessionResponse where
  session_id : String
  game_file : String
  observation : String
  admissible_commands : List String
  status : String
  created_at : Nat
  last_active_at : Nat
deriving DecidableEq

/-- Modelled from the spec: `alfworld/api/batcher.py`
(`BatchCoordinator.submit_step`) is not under `src/`.  Per section 4.5 the
coordinator dispatches the exchange and returns each caller's own response
object verbatim after also updating the session's `last_active_at`,
`observation`, `admissible_commands`, and `status` if `done` is true;
`last_active_at` is updated on every successful step.  The worker's
response is supplied as `resp`. -/
def submit_step (st : ManagerState) (session_id : String)
    (resp : WorkerStepResponse) (now : Nat) : WorkerStepResponse × ManagerState :=
  if resp.status == "ok" then
    (resp,
      { st with
          sessions := st.sessions.map (fun q =>
            if q.1 == session_id then
              (q.1,
                { q.2 with
                    last_active_at := now
                    observation := resp.observation
                    admissible_commands := resp.admissible_commands
                    status := if resp.done then ("done") else q.2.status })
            else q) })
  else (resp, st)

/-- The `step_session` route handler (`routes.py`, lines 51-77).  The
worker response that the batch coordinator's exchange would produce is
supplied by `resp`, the clock by `now`; the request's action string plays
no role in the control flow modelled here. -/
def step_session (st : ManagerState) (session_id : String)
    (resp : WorkerStepResponse) (now : Nat) :
    Except ApiError StepResponse × ManagerState :=
  match st.sessions.find? (fun q => q.1 == session_id) with
  | none => (Except.error (ApiError.sessionNotFound session_id), st)
  | some q =>
    if q.2.status == "done" then
      (Except.error (ApiError.sessionAlreadyDone session_id), st)
    else
      let r := submit_step st session_id resp now
      if r.1.status ≠ "ok" then
        (Except.error (ApiError.containerError r.1.message), r.2)
      else
        let done := r.1.done
        let st2 :=
          if done then
            { r.2 with
                sessions := r.2.sessions.map (fun q2 =>
                  if q2.1 == session_id then (q2.1, { q2.2 with status := "done" }) else q2) }
          else r.2
        (Except.ok
          { session_id := session_id
            observation := r.1.observation
            score := r.1.score
            done := done
            won := r.1.won
            admissible_commands := r.1.admissible_commands }, st2)

/-- The `get_session` route handler (`routes.py`, lines 87-100). -/
def get_session_route (st : ManagerState) (session_id : String) :
    Except ApiError SessionResponse :=
  match get_session st session_id with
  | Except.error e => Except.error e
  | Except.ok s =>
    Except.ok
      { session_id := s.session_id
        game_file := s.game_file
        observation := s.observation
        admissible_commands := s.admissible_commands
        status := s.status
        created_at := s.created_at
        last_active_at := s.last_active_at }

/-! ## Helper lemmas on the sessions map -/

theorem mapSet_fresh (m : List (String × Session)) (k : String) (v : Session)
    (hfresh : m.any (fun q => q.1 == k) = false) :
    mapSet m k v = m ++ [(k, v)] := by
  unfold mapSet
  rw [if_neg (by simp [hfresh])]

theorem mapPop_append_fresh (m : List (String × Session)) (k : String) (v : Session)
    (hfresh : m.any (fun q => q.1 == k) = false) :
    mapPop (m ++ [(k, v)]) k = (some v, m) := by
  induction m with
  | nil => simp [mapPop]
  | cons a tl ih =>
    have ha : (a.1 == k) = false := by
      have := List.any_eq_false.mp hfresh a (List.mem_cons_self a tl)
      simpa using this
    have htl : tl.any (fun q => q.1 == k) = false := by
      apply List.any_eq_false.mpr
      intro x hx
      exact List.any_eq_false.mp hfresh x (List.mem_cons_of_mem a hx)
    have ih2 := ih htl
    unfold mapPop at ih2 ⊢
    rw [List.cons_append, List.find?_cons_of_neg _ (by simp [ha])]
    cases hf : (tl ++ [(k, v)]).find? (fun q => q.1 == k) with
    | none => rw [hf] at ih2; simp at ih2
    | some q =>
      rw [hf] at ih2
      simp only [hf]
      rw [List.eraseP_cons_of_neg (by simp [ha])]
      simp only [Prod.mk.injEq] at ih2 ⊢
      exact ⟨ih2.1, by rw [ih2.2]⟩

theorem length_mapSet_mem (m : List (String × Session)) (k : String) (v : Session)
    (hmem : m.any (fun q => q.1 == k) = true) :
    (mapSet m k v).length = m.length := by
  unfold mapSet
  rw [if_pos hmem, List.length_map]

/-- Updating the entry found at a key with `List.map` leaves the map found
at that key with the updated value. -/
theorem find?_mapUpdate (m : List (String × Session)) (k : String) (s : Session)
    (f : Session → Session)
    (hfind : m.find? (fun q => q.1 == k) = some (k, s)) :
    (m.map (fun q => if q.1 == k then (q.1, f q.2) else q)).find?
        (fun q => q.1 == k) = some (k, f s) := by
  induction m with
  | nil => simp at hfind
  | cons a tl ih =>
    by_cases ha : a.1 = k
    · rw [List.find?_cons_of_pos _ (by simp [ha])] at hfind
      have := Option.some.inj hfind
      subst this
      simp only [List.map_cons]
      rw [if_pos (by simp)]
      rw [List.find?_cons_of_pos _ (by simp)]
    · rw [List.find?_cons_of_neg _ (by simp [ha])] at hfind
      simp only [List.map_cons]
      rw [if_neg (by simp [ha])]
      rw [List.find?_cons_of_neg _ (by simp [ha])]
      exact ih hfind

/-- After erasing the entry at a key from a map with no duplicate keys, a
lookup of that key finds nothing. -/
theorem find?_eraseP_self (m : List (String × Session)) (k : String)
    (hnd : (m.map Prod.fst).Nodup) :
    (m.eraseP (fun q => q.1 == k)).find? (fun q => q.1 == k) = none := by
  induction m with
  | nil => simp
  | cons a tl ih =>
    rw [List.map_cons, List.nodup_cons] at hnd
    by_cases ha : a.1 = k
    · rw [List.eraseP_cons_of_pos (by simp [ha])]
      apply List.find?_eq_none.mpr
      intro x hx
      simp only [beq_iff_eq]
      intro hxk
      exact hnd.1 (by rw [← ha] at hxk; exact hxk ▸ List.mem_map_of_mem Prod.fst hx)
    · rw [List.eraseP_cons_of_neg (by simp [ha])]
      rw [List.find?_cons_of_neg _ (by simp [ha])]
      exact ih hnd.2

/-! ## Permit accounting -/

/-- The permit-accounting invariant: the number of outstanding semaphore
permits (`max_sessions` minus the semaphore's internal value) equals the
number of sessions in the map; stated as
`semValue + |sessions| = maxSessions`, which also pins
`semValue ≤ maxSessions`. -/
def Inv (st : ManagerState) : Prop :=
  st.semValue + st.sessions.length = st.maxSessions

instance : DecidablePred Inv := fun st => by
  unfold Inv; infer_instance

theorem create_session_inv (st : ManagerState) (env : CreateEnv)
    (game_file : Option String) (task_type : Option Int) (hInv : Inv st)
    (hfresh : st.sessions.any (fun q => q.1 == env.sessionId) = false) :
    Inv (create_session st env game_file task_type).2 := by
  unfold Inv at hInv ⊢
  unfold create_session
  by_cases h0 : st.semValue = 0
  · rw [if_pos h0]; exact hInv
  · rw [if_neg h0]
    have hset := mapSet_fresh st.sessions env.sessionId
    have hpop := mapPop_append_fresh st.sessions env.sessionId
    cases hpick : (match game_file with
      | some g => some g
      | none => random_choice env.randIndex (pick_candidates st.game_files task_type)) with
    | none =>
      simp only [hpick]
      omega
    | some gf =>
      simp only [hpick]
      by_cases hstart : env.startOk
      · simp only [hstart, Bool.not_true, Bool.false_eq_true, if_false]
        by_cases hattach : env.attachOk
        · simp only [hattach, Bool.not_true, Bool.false_eq_true, if_false]
          by_cases hinit : env.initStatus ≠ "ok"
          · rw [if_pos hinit]
            simp only
            rw [hset _ hfresh, hpop _ hfresh]
            simp
            omega
          · rw [if_neg hinit]
            simp only
            rw [hset _ hfresh]
            have hmem : ∀ v : Session, (st.sessions ++ [(env.sessionId, v)]).any
                (fun q => q.1 == env.sessionId) = true := fun v =>
              List.any_eq_true.mpr
                ⟨(env.sessionId, v), List.mem_append_right _ (List.mem_singleton.mpr rfl),
                  by simp⟩
            rw [length_mapSet_mem _ _ _ (hmem _)]
            simp only [List.length_append, List.length_cons, List.length_nil]
            omega
        · simp only [hattach, Bool.not_false, if_true]
          omega
      · have : env.startOk = false := by simpa using hstart
        simp only [this, Bool.not_false, if_true]
        omega

theorem delete_session_inv (st : ManagerState) (session_id : String)
    (hInv : Inv st) : Inv (delete_session st session_id).2 := by
  unfold Inv at hInv ⊢
  unfold delete_session mapPop
  cases hf : st.sessions.find? (fun q => q.1 == session_id) with
  | none => exact hInv
  | some q =>
    simp only
    have hmem := List.mem_of_find?_eq_some hf
    have hpq := List.find?_some hf
    have hlen : (st.sessions.eraseP (fun r => r.1 == session_id)).length + 1 =
        st.sessions.length := List.length_eraseP_add_one hmem hpq
    omega

theorem foldl_delete_inv (ids : List String) (st : ManagerState) (hInv : Inv st) :
    Inv (ids.foldl (fun s sid => (delete_session s sid).2) st) := by
  induction ids generalizing st with
  | nil => exact hInv
  | cons i tl ih => exact ih _ (delete_session_inv st i hInv)

theorem delete_all_foldl_inv (ids : List String) (acc : List String)
    (st : ManagerState) (hInv : Inv st) :
    Inv (ids.foldl
      (fun acc2 sid =>
        match delete_session acc2.2 sid with
        | (Except.ok _, st2) => (acc2.1 ++ [sid], st2)
        | (Except.error _, st2) => (acc2.1, st2))
      (acc, st)).2 := by
  induction ids generalizing acc st with
  | nil => exact hInv
  | cons i tl ih =>
    simp only [List.foldl_cons]
    have hnext := delete_session_inv st i hInv
    cases hd : delete_session st i with
    | mk r st2 =>
      rw [hd] at hnext
      cases r with
      | ok u => exact ih _ _ hnext
      | error e => exact ih _ _ hnext

/-- Claim C2: after every completed public operation of the session
registry (`create_session`, `delete_session`, `delete_all_sessions`, the
reaper sweep, `shutdown`), the number of outstanding semaphore permits
equals the number of sessions in the map — the invariant `Inv` is
preserved by each operation (for `create_session`, under the freshness of
the generated uuid). -/
theorem c2_permit_accounting :
    (∀ (st : ManagerState) (env : CreateEnv) (game_file : Option String)
        (task_type : Option Int), Inv st →
        st.sessions.any (fun q => q.1 == env.sessionId) = false →
        Inv (create_session st env game_file task_type).2) ∧
    (∀ (st : ManagerState) (sid : String), Inv st → Inv (delete_session st sid).2) ∧
    (∀ st : ManagerState, Inv st → Inv (delete_all_sessions st).2) ∧
    (∀ (st : ManagerState) (now : Nat), Inv st → Inv (cleanup_sweep st now)) ∧
    (∀ st : ManagerState, Inv st → Inv (shutdown st)) := by
  refine ⟨?_, ?_, ?_, ?_, ?_⟩
  · intro st env gf tt h1 h2; exact create_session_inv st env gf tt h1 h2
  · intro st sid h; exact delete_session_inv st sid h
  · intro st h; exact delete_all_foldl_inv _ [] st h
  · intro st now h; exact foldl_delete_inv _ st h
  · intro st h; exact foldl_delete_inv _ st h

/-! ## Concrete states used to instantiate the theorems -/

def sessionW : Session :=
  { session_id := "s1", container := 4, socket := 9, game_file := "g1",
    observation := "obs", admissible_commands := ["look"], status := "active",
    created_at := 0, last_active_at := 0, read_buffer := "" }

def sessionDone : Session :=
  { sessionW with session_id := "s2", status := "done" }

def stW : ManagerState :=
  { sessions := [("s1", sessionW)], semValue := 1, maxSessions := 2,
    game_files := ["g1", "g2"], idleTimeout := 600,
    startedContainers := [4], killedContainers := [] }

def stDone : ManagerState :=
  { stW with sessions := [("s2", sessionDone)] }

def stFull : ManagerState :=
  { sessions := [], semValue := 0, maxSessions := 2, game_files := ["g1"],
    idleTimeout := 600, startedContainers := [], killedContainers := [] }

def envW : CreateEnv :=
  { sessionId := "s9", newContainer := 7, socketId := 3, startOk := true,
    attachOk := true, initStatus := "ok", initMessage := "",
    initObservation := "o2", initAdmissible := ["go"], randIndex := 1, now := 10 }

def envAttachFail : CreateEnv :=
  { envW with attachOk := false }

def respOk : WorkerStepResponse :=
  { status := "ok", message := "", observation := "o3", score := 1,
    done := false, won := false, admissible_commands := ["north"] }

/-! ## Claims about the session registry -/

/-- Claim C1: contrary to the claim, a failure of the attach step after the
container has been started does NOT kill the container.  On the concrete
run below (attach raises, everything else healthy), `create_session`
surfaces the container-error, releases the permit and leaves no session in
the map, but the started container receives no kill call: the generic
exception handler of `create_session` (lines 135-137) only releases the
semaphore.  The kill happens only on the failed-init path (lines 120-126). -/
theorem c1_attach_failure_skips_kill :
    (create_session stW envAttachFail none none).1 =
        Except.error (ApiError.containerError ("Failed to create session: attach")) ∧
    (create_session stW envAttachFail none none).2.startedContainers = [4, 7] ∧
    (create_session stW envAttachFail none none).2.killedContainers = [] ∧
    (create_session stW envAttachFail none none).2.sessions = stW.sessions ∧
    (create_session stW envAttachFail none none).2.semValue = stW.semValue := by
  refine ⟨?_, ?_, ?_, ?_, ?_⟩ <;> rfl

theorem c2_permit_accounting_witness :
    Inv stW ∧ (stW.sessions.any (fun q => q.1 == envW.sessionId) = false) ∧
    Inv (create_session stW envW none none).2 ∧
    Inv (delete_session stW ("s1")).2 ∧
    Inv (delete_all_sessions stW).2 ∧
    Inv (cleanup_sweep stW 1000) ∧
    Inv (shutdown stW) :=
  ⟨by decide, by decide,
    c2_permit_accounting.1 stW envW none none (by decide) (by decide),
    c2_permit_accounting.2.1 stW ("s1") (by decide),
    c2_permit_accounting.2.2.1 stW (by decide),
    c2_permit_accounting.2.2.2.1 stW 1000 (by decide),
    c2_permit_accounting.2.2.2.2 stW (by decide)⟩

/-- Claim C5: when no semaphore permit is free (`_value` is 0), the
check-and-acquire of `create_session` fails immediately with the distinct
no-slots error, without blocking, without starting a container, without
inserting a session, and without changing any state at all (the returned
state is the input state).  In this sequential model of the single
event-loop scheduler the check and the acquire execute atomically. -/
theorem c5_no_slots_rejected_without_side_effects (st : ManagerState)
    (env : CreateEnv) (game_file : Option String) (task_type : Option Int)
    (h : st.semValue = 0) :
    create_session st env game_file task_type =
      (Except.error (ApiError.noSlotsAvailable st.maxSessions), st) := by
  unfold create_session
  rw [if_pos h]

theorem c5_no_slots_rejected_without_side_effects_witness :
    stFull.semValue = 0 ∧
    create_session stFull envW none none =
      (Except.error (ApiError.noSlotsAvailable stFull.maxSessions), stFull) :=
  ⟨rfl, c5_no_slots_rejected_without_side_effects stFull envW none none rfl⟩

/-- Claim C7: the done state is absorbing.  For a session whose status is
`"done"`, a step submission is rejected with the session-already-done
error and the registry state is returned unchanged, while `get_session`,
the session-metadata route, and `delete_session` still succeed. -/
theorem c7_done_state_absorbing (st : ManagerState) (sid : String) (s : Session)
    (resp : WorkerStepResponse) (now : Nat)
    (hfind : st.sessions.find? (fun q => q.1 == sid) = some (sid, s))
    (hdone : s.status = "done") :
    step_session st sid resp now =
        (Except.error (ApiError.sessionAlreadyDone sid), st) ∧
    get_session st sid = Except.ok s ∧
    get_session_route st sid = Except.ok
      { session_id := s.session_id, game_file := s.game_file,
        observation := s.observation, admissible_commands := s.admissible_commands,
        status := s.status, created_at := s.created_at,
        last_active_at := s.last_active_at } ∧
    (delete_session st sid).1 = Except.ok () := by
  refine ⟨?_, ?_, ?_, ?_⟩
  · unfold step_session
    rw [hfind]
    simp [hdone]
  · unfold get_session
    rw [hfind]
  · unfold get_session_route get_session
    rw [hfind]
  · unfold delete_session mapPop
    rw [hfind]

theorem c7_done_state_absorbing_witness :
    stDone.sessions.find? (fun q => q.1 == "s2") = some ("s2", sessionDone) ∧
    sessionDone.status = "done" ∧
    step_session stDone ("s2") respOk 5 =
        (Except.error (ApiError.sessionAlreadyDone ("s2")), stDone) ∧
    get_session stDone ("s2") = Except.ok sessionDone ∧
    (delete_session stDone ("s2")).1 = Except.ok () :=
  ⟨by decide, by decide,
    (c7_done_state_absorbing stDone ("s2") sessionDone respOk 5 (by decide) (by decide)).1,
    (c7_done_state_absorbing stDone ("s2") sessionDone respOk 5 (by decide) (by decide)).2.1,
    (c7_done_state_absorbing stDone ("s2") sessionDone respOk 5 (by decide) (by decide)).2.2.2⟩

/-- Claim C8: delete is idempotent in its effect on registry state: a
delete of an id absent from the map returns the session-not-found error
and changes nothing (neither the permit count nor the map), and after a
successful delete of an id (keys being unique, as for a Python dict) a
second delete of the same id returns session-not-found and again changes
nothing. -/
theorem c8_delete_idempotent :
    (∀ (st : ManagerState) (sid : String),
        st.sessions.find? (fun q => q.1 == sid) = none →
        delete_session st sid = (Except.error (ApiError.sessionNotFound sid), st)) ∧
    (∀ (st st2 : ManagerState) (sid : String),
        (st.sessions.map Prod.fst).Nodup →
        delete_session st sid = (Except.ok (), st2) →
        delete_session st2 sid = (Except.error (ApiError.sessionNotFound sid), st2)) := by
  constructor
  · intro st sid h
    unfold delete_session mapPop
    rw [h]
  · intro st st2 sid hnd hdel
    unfold delete_session mapPop at hdel
    cases hf : st.sessions.find? (fun q => q.1 == sid) with
    | none => rw [hf] at hdel; simp at hdel
    | some q =>
      rw [hf] at hdel
      simp only [Prod.mk.injEq] at hdel
      have hst2 := hdel.2
      unfold delete_session mapPop
      rw [← hst2]
      simp only
      rw [find?_eraseP_self st.sessions sid hnd]

theorem c8_delete_idempotent_witness :
    stFull.sessions.find? (fun q => q.1 == "zz") = none ∧
    delete_session stFull ("zz") =
      (Except.error (ApiError.sessionNotFound ("zz")), stFull) ∧
    (stW.sessions.map Prod.fst).Nodup ∧
    delete_session (delete_session stW ("s1")).2 ("s1") =
      (Except.error (ApiError.sessionNotFound ("s1")), (delete_session stW ("s1")).2) :=
  ⟨by decide, c8_delete_idempotent.1 stFull ("zz") (by decide), by decide,
    c8_delete_idempotent.2 stW (delete_session stW ("s1")).2 ("s1") (by decide) rfl⟩

/-- Claim C10: when `game_file` is omitted and the supplied `task_type`
integer is not one of the six known keys, `create_session` raises no error
from the selection and applies no filtering: the candidate pool is the
full unrestricted pool of discovered game files, the whole call behaves
exactly as if no task type had been given, and (for a non-empty pool) the
random choice succeeds. -/
theorem c10_unknown_task_type_uses_full_pool (st : ManagerState) (env : CreateEnv)
    (tt : Int) (hunknown : TASK_TYPES.find? (fun q => q.1 == tt) = none) :
    pick_candidates st.game_files (some tt) = st.game_files ∧
    create_session st env none (some tt) = create_session st env none none ∧
    (st.game_files ≠ [] →
      (random_choice env.randIndex (pick_candidates st.game_files (some tt))).isSome =
        true) := by
  have h1 : pick_candidates st.game_files (some tt) = st.game_files := by
    simp only [pick_candidates]
    rw [dif_neg (by rw [hunknown]; simp)]
  refine ⟨h1, ?_, ?_⟩
  · unfold create_session
    rw [h1]
    rfl
  · intro hne
    rw [h1]
    unfold random_choice
    have hlt : env.randIndex % st.game_files.length < st.game_files.length :=
      Nat.mod_lt _ (List.length_pos.mpr hne)
    simp [List.getElem?_eq_getElem hlt]

theorem c10_unknown_task_type_uses_full_pool_witness :
    TASK_TYPES.find? (fun q => q.1 == (9 : Int)) = none ∧
    pick_candidates stW.game_files (some 9) = stW.game_files ∧
    create_session stW envW none (some 9) = create_session stW envW none none ∧
    (random_choice envW.randIndex (pick_candidates stW.game_files (some 9))).isSome =
      true :=
  ⟨by decide,
    (c10_unknown_task_type_uses_full_pool stW envW 9 (by decide)).1,
    (c10_unknown_task_type_uses_full_pool stW envW 9 (by decide)).2.1,
    (c10_unknown_task_type_uses_full_pool stW envW 9 (by decide)).2.2 (by decide)⟩

/-- Claim C6: for every successful step (worker response with status
`"ok"`) on an existing non-done session, the coordinator returns the
worker's response verbatim to its caller, the route returns the step
response built from that response, and the session's `last_active_at`,
`observation` and `admissible_commands` are updated, with `status` set to
`"done"` exactly when the response carries `done = true`. -/
theorem c6_successful_step_updates_session (st : ManagerState) (sid : String)
    (s : Session) (resp : WorkerStepResponse) (now : Nat)
    (hfind : st.sessions.find? (fun q => q.1 == sid) = some (sid, s))
    (hactive : s.status ≠ "done") (hok : resp.status = "ok") :
    (submit_step st sid resp now).1 = resp ∧
    (step_session st sid resp now).1 = Except.ok
      { session_id := sid, observation := resp.observation, score := resp.score,
        done := resp.done, won := resp.won,
        admissible_commands := resp.admissible_commands } ∧
    (step_session st sid resp now).2.sessions.find? (fun q => q.1 == sid) =
      some (sid,
        { s with last_active_at := now, observation := resp.observation,
                 admissible_commands := resp.admissible_commands,
                 status := if resp.done then ("done") else s.status }) := by
  have hbeq : (resp.status == "ok") = true := by simp [hok]
  have hsbeq : (s.status == "done") = false := by
    simp only [beq_eq_false_iff_ne, ne_eq]
    exact hactive
  refine ⟨?_, ?_, ?_⟩
  · unfold submit_step
    rw [if_pos hbeq]
  · unfold step_session submit_step
    rw [hfind]
    simp [hsbeq, hbeq, hok]
  · have h1 := find?_mapUpdate st.sessions sid s
      (fun x => { x with last_active_at := now, observation := resp.observation,
                         admissible_commands := resp.admissible_commands,
                         status := if resp.done then ("done") else x.status }) hfind
    have hnotdone : ¬((sid, s).2.status == "done") = true := by
      rw [hsbeq]; exact Bool.false_ne_true
    have hnotneq : ¬(resp.status ≠ "ok") := by simp [hok]
    by_cases hdone : resp.done = true
    · have h2 := find?_mapUpdate
        (st.sessions.map (fun q => if q.1 == sid then
            (q.1, { q.2 with last_active_at := now, observation := resp.observation,
                             admissible_commands := resp.admissible_commands,
                             status := if resp.done then ("done") else q.2.status })
          else q))
        sid
        { s with last_active_at := now, observation := resp.observation,
                 admissible_commands := resp.admissible_commands,
                 status := if resp.done then ("done") else s.status }
        (fun x => { x with status := "done" }) h1
      unfold step_session submit_step
      rw [hfind]
      dsimp only
      rw [if_neg hnotdone, if_pos hbeq]
      dsimp only
      rw [if_neg hnotneq, if_pos hdone]
      dsimp only
      conv_rhs => rw [if_pos hdone]
      exact h2
    · unfold step_session submit_step
      rw [hfind]
      dsimp only
      rw [if_neg hnotdone, if_pos hbeq]
      dsimp only
      rw [if_neg hnotneq, if_neg hdone]
      dsimp only
      exact h1

def stActive : ManagerState := stW

theorem c6_successful_step_updates_session_witness :
    stActive.sessions.find? (fun q => q.1 == "s1") = some ("s1", sessionW) ∧
    sessionW.status ≠ "done" ∧ respOk.status = "ok" ∧
    (submit_step stActive ("s1") respOk 42).1 = respOk ∧
    (step_session stActive ("s1") respOk 42).1 = Except.ok
      { session_id := "s1", observation := respOk.observation, score := respOk.score,
        done := respOk.done, won := respOk.won,
        admissible_commands := respOk.admissible_commands } ∧
    (step_session stActive ("s1") respOk 42).2.sessions.find? (fun q => q.1 == "s1") =
      some ("s1",
        { sessionW with last_active_at := 42, observation := respOk.observation,
                        admissible_commands := respOk.admissible_commands,
                        status := if respOk.done then ("done") else sessionW.status }) :=
  ⟨by decide, by decide, by decide,
    (c6_successful_step_updates_session stActive ("s1") sessionW respOk 42
      (by decide) (by decide) (by decide)).1,
    (c6_successful_step_updates_session stActive ("s1") sessionW respOk 42
      (by decide) (by decide) (by decide)).2.1,
    (c6_successful_step_updates_session stActive ("s1") sessionW respOk 42
      (by decide) (by decide) (by decide)).2.2⟩

end Alfworld
